import Mathlib

/-!
Verification of the fieldstation-remote digit-dialer and easter-egg
cooldown system against its natural-language specification.

The Python sources are shallowly embedded: each class becomes a structure
holding the instance attributes, each method a pure function from the old
state (plus arguments) to the new state.  Wall-clock time is passed
explicitly as an integer argument.  `threading.Timer` objects are embedded
as records carrying a cancelled/fired flag; a timer callback is modelled
as an explicit "fire" step whose guard requires the timer to be neither
cancelled nor fired, reflecting the guarantee of `threading.Timer` that a
`cancel()` issued before the interval expires prevents the callback from
running.  Critical sections (every method body runs under the object's
single mutex) are modelled as atomic steps.
-/

/-- Association-list lookup, the embedding of Python `dict.get`. -/
def lookupA {α : Type} : List (String × α) → String → Option α
  | [], _ => none
  | (k', v') :: rest, k => if k' = k then some v' else lookupA rest k

/-- Association-list insertion, the embedding of Python `dict[k] = v`
(updates in place when the key exists, appends otherwise). -/
def insertA {α : Type} : List (String × α) → String → α → List (String × α)
  | [], k, v => [(k, v)]
  | (k', v') :: rest, k, v =>
    if k' = k then (k, v) :: rest else (k', v') :: insertA rest k v

/-- Association-list removal, the embedding of Python `del dict[k]`
guarded by `if k in dict` (removing an absent key is a no-op). -/
def eraseA {α : Type} : List (String × α) → String → List (String × α)
  | [], _ => []
  | (k', v') :: rest, k =>
    if k' = k then rest else (k', v') :: eraseA rest k

/-- Apply `f` to the element at position `i`, leaving the list unchanged
when `i` is out of range. -/
def modifyAt {α : Type} (f : α → α) : List α → Nat → List α
  | [], _ => []
  | x :: xs, 0 => f x :: xs
  | x :: xs, n + 1 => x :: modifyAt f xs n

/-- A `threading.Timer` created by
`EasterEggCooldownManager.activate_easter_egg`: it carries the easter-egg
key and the cleanup callback (identified here by the key), fires at
`fire_time`, and can be cancelled before it fires. -/
structure CleanupTimer where
  key : String
  fire_time : Int
  cancelled : Bool
  fired : Bool
deriving Repr, DecidableEq

/-- State of `EasterEggCooldownManager` (src/easter_eggs.py).  The three
dictionaries of the Python class are association lists; `timers` is the
pool of every `threading.Timer` ever created (identified by position) and
`cleanup_runs` is a ghost log recording each invocation of a user-supplied
cleanup callback, as the pair (key, time of the call). -/
structure CooldownManager where
  last_activation : List (String × Int)
  active_effects : List (String × Int)
  cleanup_timers : List (String × Nat)
  timers : List CleanupTimer
  cleanup_runs : List (String × Int)
deriving Repr

/-- A freshly constructed `EasterEggCooldownManager`. -/
def CooldownManager.init : CooldownManager := ⟨[], [], [], [], []⟩

/-- Method `EasterEggCooldownManager.can_activate`: compares the time elapsed
since the last recorded activation (an absent key reads as 0) with the
cooldown duration. -/
def CooldownManager.can_activate (s : CooldownManager) (easter_egg_id : String)
    (cooldown_duration : Int) (now : Int) : Bool :=
  decide (cooldown_duration ≤ now - ((lookupA s.last_activation easter_egg_id).getD 0))

/-- Method `EasterEggCooldownManager.get_time_until_available`. -/
def CooldownManager.get_time_until_available (s : CooldownManager)
    (easter_egg_id : String) (cooldown_duration : Int) (now : Int) : Int :=
  max 0 (cooldown_duration - (now - ((lookupA s.last_activation easter_egg_id).getD 0)))

/-- Method `EasterEggCooldownManager.activate_easter_egg`: records the activation
time; when an effect duration and a cleanup callback are both supplied
(Python truthiness: a zero duration counts as absent), cancels any
existing cleanup timer for the key, records the expiry time, and arms a
fresh cleanup timer. -/
def CooldownManager.activate_easter_egg (s : CooldownManager) (easter_egg_id : String)
    (cooldown_duration : Int) (effect_duration : Option Int) (has_cleanup : Bool)
    (now : Int) : CooldownManager :=
  let s1 := { s with last_activation := insertA s.last_activation easter_egg_id now }
  match effect_duration with
  | none => s1
  | some d =>
    if d ≠ 0 ∧ has_cleanup = true then
      let timers1 :=
        match lookupA s1.cleanup_timers easter_egg_id with
        | some tid => modifyAt (fun u => { u with cancelled := true }) s1.timers tid
        | none => s1.timers
      { s1 with
        active_effects := insertA s1.active_effects easter_egg_id (now + d),
        timers := timers1 ++ [⟨easter_egg_id, now + d, false, false⟩],
        cleanup_timers := insertA s1.cleanup_timers easter_egg_id timers1.length }
    else s1

/-- Method `EasterEggCooldownManager._cleanup_effect`, the body of the cleanup
timer callback: under the lock it deletes the key from `active_effects`
and `cleanup_timers` when present, and afterwards invokes the
user-supplied cleanup callback (recorded in the `cleanup_runs` ghost log).
Note that in the source the callback invocation is outside the
key-presence checks and therefore unconditional. -/
def CooldownManager._cleanup_effect (s : CooldownManager) (easter_egg_id : String)
    (now : Int) : CooldownManager :=
  { s with
    active_effects := eraseA s.active_effects easter_egg_id,
    cleanup_timers := eraseA s.cleanup_timers easter_egg_id,
    cleanup_runs := s.cleanup_runs ++ [(easter_egg_id, now)] }

/-- Method `EasterEggCooldownManager.is_effect_active`. -/
def CooldownManager.is_effect_active (s : CooldownManager) (easter_egg_id : String) : Bool :=
  (lookupA s.active_effects easter_egg_id).isSome

/-- Method `EasterEggCooldownManager.force_cleanup`: cancels the pending timer
and removes both bookkeeping entries, without invoking the cleanup
callback. -/
def CooldownManager.force_cleanup (s : CooldownManager) (easter_egg_id : String) :
    CooldownManager :=
  let s1 :=
    match lookupA s.cleanup_timers easter_egg_id with
    | some tid =>
      { s with
        timers := modifyAt (fun u => { u with cancelled := true }) s.timers tid,
        cleanup_timers := eraseA s.cleanup_timers easter_egg_id }
    | none => s
  { s1 with active_effects := eraseA s1.active_effects easter_egg_id }

/-- Method `EasterEggCooldownManager.cleanup_all`: cancels every timer recorded
in `cleanup_timers` and clears both maps, without invoking any callback. -/
def CooldownManager.cleanup_all (s : CooldownManager) : CooldownManager :=
  { s with
    timers := s.cleanup_timers.foldl
      (fun ts kv => modifyAt (fun u => { u with cancelled := true }) ts kv.2) s.timers,
    cleanup_timers := [],
    active_effects := [] }

/-- The firing of the cleanup timer at position `tid`: enabled only when
the timer exists and is neither cancelled nor fired (a `threading.Timer`
fires at most once, and cancelling it before its interval expires prevents
the callback from running); it marks the timer fired and runs
`_cleanup_effect` with the timer's key at its scheduled time. -/
def CooldownManager.fire_timer (s : CooldownManager) (tid : Nat) : CooldownManager :=
  match s.timers.get? tid with
  | none => s
  | some t =>
    if t.cancelled || t.fired then s
    else
      CooldownManager._cleanup_effect
        { s with timers := modifyAt (fun u => { u with fired := true }) s.timers tid }
        t.key t.fire_time

/-- Fire every fireable cleanup timer, in creation order (all scheduled
intervals are eventually reached). -/
def CooldownManager.fire_all (s : CooldownManager) : CooldownManager :=
  (List.range s.timers.length).foldl CooldownManager.fire_timer s

/-- A registry entry of `EasterEggRegistry._registry` (src/easter_eggs.py):
feedback message, optional display label, cooldown, optional active-effect
duration and whether a cleanup callback is present. -/
structure EggConfig where
  message : String
  display : Option String
  cooldown : Int
  duration : Option Int
  has_cleanup : Bool
deriving Repr, DecidableEq

/-- Method `EasterEggRegistry.trigger_easter_egg` (src/easter_eggs.py): looks the
sequence up; when absent returns `false`; when on cooldown emits feedback
and returns `false` without touching the manager; otherwise activates the
egg in the cooldown manager and then runs the registered action, catching
any exception it raises (`action_raises` says whether it raises; either
way the activation already recorded is kept).  Returns the new manager
state and the boolean result of the Python method. -/
def CooldownManager.trigger_easter_egg (s : CooldownManager)
    (registry : List (String × EggConfig)) (sequence : String) (now : Int)
    (action_raises : Bool) : CooldownManager × Bool :=
  match lookupA registry sequence with
  | none => (s, false)
  | some config =>
    if s.can_activate sequence config.cooldown now = false then
      (s, false)
    else
      (s.activate_easter_egg sequence config.cooldown config.duration
        config.has_cleanup now, true)

/-- The valid channel list `VALID_CHANNELS` (src/config/settings.py and
src/flipper_ir_remote.py). -/
def VALID_CHANNELS : List Nat := [1, 2, 3, 8, 9, 13]

/-- Argument passed to `DisplayController.display_number`: Python
distinguishes strings (kept verbatim, leading zeros preserved) from
numbers (converted with `str(int(number))`). -/
inductive NumArg where
  | str (s : String)
  | int (n : Int)
deriving Repr, DecidableEq

/-- Method `DisplayController.display_number` (src/flipper_ir_remote.py and
src/display_controller.py): the display command sent over serial — the
prefix `DISP:` followed by the first four characters of the argument, a
string being kept verbatim and a number first converted via
`str(int(number))`.  No uppercasing is applied. -/
def DisplayController.display_number (number : NumArg) : String :=
  match number with
  | NumArg.str s => "DISP:" ++ String.mk (s.data.take 4)
  | NumArg.int n => "DISP:" ++ String.mk ((toString n).data.take 4)

/-- Method `DisplayController.display_text`: first four characters, uppercased. -/
def DisplayController.display_text (text : String) : String :=
  "DISP:" ++ String.mk ((text.data.take 4).map Char.toUpper)

/-- One logged display call made by the dialer: `display_number(arg)` or
`display_text(s)`. -/
inductive DisplayOp where
  | number (arg : NumArg)
  | text (s : String)
deriving Repr, DecidableEq

/-- A record published to the channel socket by `write_channel_command`
(src/core/socket_writer.py): the `valid` and `fallback_channel` fields are
included only when supplied. -/
structure ChannelCommand where
  command : String
  channel : Nat
  valid : Option Bool
  fallback_channel : Option Nat
deriving Repr, DecidableEq

/-- Outcome of a special-key trigger: it ran to completion, was blocked by
its cooldown, or raised an exception (caught by the orchestration). -/
inductive Outcome where
  | success
  | blocked
  | failed
deriving Repr, DecidableEq

/-- Modelled from the spec: class `EasterEggHandler` (imported by
src/features/channel_dialer.py from `features.easter_eggs`) is missing
from the sources — only its call sites exist.  Per the spec (§4.1, §4.4),
`check_and_execute(seq)` reports whether `seq` exactly matched a
registered special key, invoking the key's trigger when it did, and its
boolean result does not depend on whether that trigger succeeded, was
blocked by cooldown, or failed.  The handler is therefore embedded as its
registered-key predicate; the trigger outcome is supplied separately by an
oracle and recorded in the dialer's `triggered` ghost log. -/
structure EggHandler where
  registered : String → Bool

/-- Modelled from the spec: `EasterEggHandler.check_and_execute` — true
exactly when the sequence is a registered special key. -/
def check_and_execute (H : EggHandler) (sequence : String) : Bool :=
  H.registered sequence

/-- A `threading.Timer` armed by `ChannelDialer.add_digit` to run
`_process_channel` after the digit timeout, identified by a unique id. -/
structure ResolveTimer where
  tid : Nat
  cancelled : Bool
  fired : Bool
deriving Repr, DecidableEq

/-- State of `ChannelDialer` (src/features/channel_dialer.py).  `timer`
is the `self.timer` handle (the id of the currently armed resolve timer,
if any), `timers` the pool of every resolve timer ever created,
`display_log` and `published` the calls made to the display and the
socket, and `triggered` a ghost log of the special-key triggers. -/
structure Dialer where
  digit_queue : List Char
  timer : Option Nat
  timers : List ResolveTimer
  next_timer_id : Nat
  current_channel : Nat
  display_log : List DisplayOp
  published : List ChannelCommand
  triggered : List (String × Outcome)
deriving Repr

/-- A freshly constructed `ChannelDialer`: empty queue, no timer, current
channel `VALID_CHANNELS[0] if VALID_CHANNELS else 1`. -/
def Dialer.init : Dialer :=
  ⟨[], none, [], 0, VALID_CHANNELS.headD 1, [], [], []⟩

/-- The statement pair `self.timer.cancel(); self.timer = None` — marks the timer the handle
refers to as cancelled and clears the handle; a no-op when the handle is
already `None`. -/
def Dialer.cancel_timer (s : Dialer) : Dialer :=
  match s.timer with
  | none => s
  | some h =>
    { s with
      timers := s.timers.map (fun t => if t.tid = h then { t with cancelled := true } else t),
      timer := none }

/-- The statement pair `self.timer = threading.Timer(...); self.timer.start()` — arms a fresh
resolve timer and stores its handle. -/
def Dialer.arm_timer (s : Dialer) : Dialer :=
  { s with
    timers := s.timers ++ [⟨s.next_timer_id, false, false⟩],
    timer := some s.next_timer_id,
    next_timer_id := s.next_timer_id + 1 }

/-- Method `ChannelDialer.add_digit` (src/features/channel_dialer.py; the version
in src/flipper_ir_remote.py is structurally identical): appends
`str(digit)` to the queue, echoes the sequence to the display, cancels any
existing resolve timer, and either — on an exact special-key match —
clears the queue and redisplays the current channel without arming a
timer, or arms a fresh resolve timer. -/
def Dialer.add_digit (H : EggHandler) (oc : String → Outcome) (s : Dialer)
    (digit : Nat) : Dialer :=
  let q := s.digit_queue ++ (Nat.repr digit).data
  let seq := String.mk q
  let s1 := { s with
    digit_queue := q,
    display_log := s.display_log ++ [DisplayOp.number (NumArg.str seq)] }
  let s2 := s1.cancel_timer
  if check_and_execute H seq then
    { s2 with
      triggered := s2.triggered ++ [(seq, oc seq)],
      digit_queue := [],
      display_log := s2.display_log ++ [DisplayOp.number (NumArg.int (s2.current_channel : Int))] }
  else
    s2.arm_timer

/-- Method `ChannelDialer.clear_queue`: empties the queue, cancels the timer, and
redisplays the current channel. -/
def Dialer.clear_queue (s : Dialer) : Dialer :=
  let s1 := Dialer.cancel_timer { s with digit_queue := [] }
  { s1 with
    display_log := s1.display_log ++ [DisplayOp.number (NumArg.int (s1.current_channel : Int))] }

/-- Method `ChannelDialer.cleanup`: cancels any pending timer and empties the
queue. -/
def Dialer.cleanup (s : Dialer) : Dialer :=
  Dialer.cancel_timer { s with digit_queue := [] }

/-- The embedding of Python `int(channel_str)` as used by
`_process_channel`: succeeds exactly on non-empty all-digit character
lists (the only shapes reaching it — Python `int` additionally accepts
signs and surrounding whitespace, which cannot occur here), returning the
decimal value; `none` is the `ValueError` outcome. -/
def parseChannel (l : List Char) : Option Nat :=
  if l ≠ [] ∧ l.all Char.isDigit then
    some (l.foldl (fun acc c => acc * 10 + (c.toNat - 48)) 0)
  else none

/-- Method `ChannelDialer.tune_to_channel` (src/features/channel_dialer.py; the
version in src/flipper_ir_remote.py publishes the same record): a valid
channel becomes current, is displayed, and is published with `valid=True`;
an invalid one leaves the current channel unchanged, shows `NOPE` then the
unchanged current channel, and is published with `valid=False` and the
current channel as `fallback_channel`. -/
def Dialer.tune_to_channel (s : Dialer) (channel : Nat) : Dialer :=
  if channel ∈ VALID_CHANNELS then
    { s with
      current_channel := channel,
      display_log := s.display_log ++ [DisplayOp.number (NumArg.int (channel : Int))],
      published := s.published ++ [⟨"direct", channel, some true, none⟩] }
  else
    { s with
      display_log := s.display_log ++
        [DisplayOp.text "NOPE", DisplayOp.number (NumArg.int (s.current_channel : Int))],
      published := s.published ++ [⟨"direct", channel, some false, some s.current_channel⟩] }

/-- Method `ChannelDialer._process_channel`, the resolve-timer callback body:
no-op on an empty queue; otherwise re-checks for a special-key match and
triggers it, or parses the queue as a channel number and tunes — showing
`ERR` and reverting to the current channel on a parse failure — and ends
by clearing the queue and the timer handle. -/
def Dialer._process_channel (H : EggHandler) (oc : String → Outcome) (s : Dialer) : Dialer :=
  if s.digit_queue = [] then s
  else
    let seq := String.mk s.digit_queue
    let s1 :=
      if check_and_execute H seq then
        { s with
          triggered := s.triggered ++ [(seq, oc seq)],
          display_log := s.display_log ++ [DisplayOp.number (NumArg.int (s.current_channel : Int))] }
      else
        match parseChannel s.digit_queue with
        | some channel_num => s.tune_to_channel channel_num
        | none =>
          { s with
            display_log := s.display_log ++
              [DisplayOp.text "ERR", DisplayOp.number (NumArg.int (s.current_channel : Int))] }
    { s1 with digit_queue := [], timer := none }

/-- Whether the resolve timer with id `tid` is live: created, not
cancelled, not yet fired. -/
def Dialer.timerLive (s : Dialer) (tid : Nat) : Bool :=
  s.timers.any (fun t => t.tid == tid && !t.cancelled && !t.fired)

/-- The firing of resolve timer `tid`: enabled only while the timer is
live (`threading.Timer` fires at most once and a `cancel()` issued before
the interval expires prevents the callback); marks it fired and runs
`_process_channel`. -/
def Dialer.fire_resolve (H : EggHandler) (oc : String → Outcome) (s : Dialer)
    (tid : Nat) : Dialer :=
  if s.timerLive tid then
    Dialer._process_channel H oc
      { s with
        timers := s.timers.map (fun t => if t.tid = tid then { t with fired := true } else t) }
  else s

/-- Number of live (pending) resolve timers. -/
def Dialer.liveCount (s : Dialer) : Nat :=
  s.timers.countP (fun t => !t.cancelled && !t.fired)

/-- Recursive position search, the embedding of Python `list.index`
wrapped in try/except (absence handled by the caller). -/
def indexOfFrom (c : Nat) : List Nat → Option Nat
  | [] => none
  | x :: xs => if x = c then some 0 else (indexOfFrom c xs).map (fun i => i + 1)

/-- The expression `VALID_CHANNELS.index(current)` with the `except ValueError:
current_idx = 0` fallback of `channel_up` / `channel_down`. -/
def channelIndex (c : Nat) : Nat :=
  (indexOfFrom c VALID_CHANNELS).getD 0

/-- Method `ChannelDialer.channel_up`: shows `UP`, computes
`(idx + 1) % len(VALID_CHANNELS)` (Python `%`, always non-negative) and
moves to that channel, displaying and publishing it. -/
def Dialer.channel_up (s : Dialer) : Dialer :=
  let next_idx : Nat := (((channelIndex s.current_channel : Int) + 1) % (VALID_CHANNELS.length : Int)).toNat
  let next_channel := VALID_CHANNELS.getD next_idx 0
  { s with
    current_channel := next_channel,
    display_log := s.display_log ++
      [DisplayOp.text "UP", DisplayOp.number (NumArg.int (next_channel : Int))],
    published := s.published ++ [⟨"up", next_channel, none, none⟩] }

/-- Method `ChannelDialer.channel_down`: shows `Dn`, computes
`(idx - 1) % len(VALID_CHANNELS)` (Python `%`, non-negative even for a
negative left operand) and moves to that channel. -/
def Dialer.channel_down (s : Dialer) : Dialer :=
  let prev_idx : Nat := (((channelIndex s.current_channel : Int) - 1) % (VALID_CHANNELS.length : Int)).toNat
  let prev_channel := VALID_CHANNELS.getD prev_idx 0
  { s with
    current_channel := prev_channel,
    display_log := s.display_log ++
      [DisplayOp.text "Dn", DisplayOp.number (NumArg.int (prev_channel : Int))],
    published := s.published ++ [⟨"down", prev_channel, none, none⟩] }

/-- The states a `ChannelDialer` can reach from construction under its
public operations and timer firings; `add_digit` inputs observe the
documented domain of the parameter (`digit: Digit to add (0-9)`). -/
inductive Dialer.Reachable (H : EggHandler) (oc : String → Outcome) : Dialer → Prop
  | init : Dialer.Reachable H oc Dialer.init
  | add_digit {s d} : Dialer.Reachable H oc s → d ≤ 9 →
      Dialer.Reachable H oc (Dialer.add_digit H oc s d)
  | clear_queue {s} : Dialer.Reachable H oc s → Dialer.Reachable H oc s.clear_queue
  | fire {s tid} : Dialer.Reachable H oc s →
      Dialer.Reachable H oc (Dialer.fire_resolve H oc s tid)
  | tune {s n} : Dialer.Reachable H oc s → Dialer.Reachable H oc (s.tune_to_channel n)
  | up {s} : Dialer.Reachable H oc s → Dialer.Reachable H oc s.channel_up
  | down {s} : Dialer.Reachable H oc s → Dialer.Reachable H oc s.channel_down
  | cleanup {s} : Dialer.Reachable H oc s → Dialer.Reachable H oc s.cleanup

/-- The character list `''.join(queue)` produced by feeding the digits of
`ds` one at a time (each contributing `str(d)`). -/
def digitChars (ds : List Nat) : List Char :=
  (ds.map (fun d => (Nat.repr d).data)).flatten

/-- The easter-egg key set of the `ChannelDialer` in
src/flipper_ir_remote.py. -/
def flipperEggKeys : List String :=
  ["911", "666", "420", "777", "1234", "0000", "404", "80085"]

/-- An `EggHandler` whose registered keys are the flipper easter eggs. -/
def flipperHandler : EggHandler :=
  ⟨fun seq => flipperEggKeys.contains seq⟩

/-- A handler with no registered keys. -/
def noEggs : EggHandler := ⟨fun _ => false⟩

/-- A trigger-outcome oracle where every trigger succeeds. -/
def okOutcome : String → Outcome := fun _ => Outcome.success

/-- The serial command a logged display call turns into. -/
def renderOp : DisplayOp → String
  | DisplayOp.number a => DisplayController.display_number a
  | DisplayOp.text t => DisplayController.display_text t

/-- The strengthened timer invariant of the dialer: every live resolve
timer is the one the `self.timer` handle points to, timer ids are below
the allocation counter, and ids are pairwise distinct. -/
def Dialer.timerInv (s : Dialer) : Prop :=
  (∀ t ∈ s.timers, t.cancelled = false → t.fired = false → s.timer = some t.tid)
  ∧ (∀ t ∈ s.timers, t.tid < s.next_timer_id)
  ∧ (s.timers.map ResolveTimer.tid).Nodup

/-! ## Helper lemmas -/

theorem lookupA_insertA_self {α : Type} (l : List (String × α)) (k : String) (v : α) :
    lookupA (insertA l k v) k = some v := by
  induction l with
  | nil => simp [insertA, lookupA]
  | cons hd tl ih =>
    obtain ⟨k', v'⟩ := hd
    by_cases h : k' = k
    · simp [insertA, lookupA, h]
    · simp [insertA, lookupA, h, ih]

theorem eraseA_lookup_none {α : Type} (l : List (String × α)) (k : String)
    (h : lookupA l k = none) : eraseA l k = l := by
  induction l with
  | nil => simp [eraseA]
  | cons hd tl ih =>
    obtain ⟨k', v'⟩ := hd
    by_cases hk : k' = k
    · simp [lookupA, hk] at h
    · simp [lookupA, hk] at h
      simp [eraseA, hk, ih h]

theorem activate_last_activation (s : CooldownManager) (k : String) (c : Int)
    (ed : Option Int) (hc : Bool) (t0 : Int) :
    (s.activate_easter_egg k c ed hc t0).last_activation = insertA s.last_activation k t0 := by
  unfold CooldownManager.activate_easter_egg
  cases ed with
  | none => rfl
  | some d =>
    dsimp only
    split
    · rfl
    · rfl

/-! ## C1 — stale cleanup-timer firing -/

/-- Claim C1, as stated, is false on the code: it asserts that when the
cleanup-timer callback finds its key no longer in the active-effects map
it acts as a silent no-op and in particular does not invoke the
user-supplied cleanup callback.  Concretely: activate egg `666` with a
300-second effect, force-clean it (which removes the key and cancels the
timer), and let the already-dispatched callback body run anyway — the code
still invokes the cleanup callback (the `cleanup_runs` log grows), because
in `_cleanup_effect` the `cleanup_callback()` call sits outside the
key-presence checks. -/
theorem C1_counterexample :
    ¬ (∀ (s : CooldownManager) (k : String) (now : Int),
        lookupA s.active_effects k = none →
        (CooldownManager._cleanup_effect s k now).cleanup_runs = s.cleanup_runs) := by
  intro h
  have hx := h ((CooldownManager.init.activate_easter_egg "666" 1800 (some 300) true 0).force_cleanup "666")
    "666" 300 (by decide)
  exact absurd hx (by decide)

/-- Claim C1 (amended): if a per-key effect-cleanup timer fires after its
key's effect was already removed (by forceCleanup, cleanupAll, or a
re-activation), the firing callback's re-check under the lock leaves the
active-effects and cleanup-timer maps unchanged, but the user-supplied
cleanup callback is still invoked, exactly once, even though the key is no
longer in the active-effects map. -/
theorem C1_amended_stale_timer (s : CooldownManager) (k : String) (now : Int)
    (ha : lookupA s.active_effects k = none) (ht : lookupA s.cleanup_timers k = none) :
    (CooldownManager._cleanup_effect s k now).active_effects = s.active_effects
    ∧ (CooldownManager._cleanup_effect s k now).cleanup_timers = s.cleanup_timers
    ∧ (CooldownManager._cleanup_effect s k now).cleanup_runs = s.cleanup_runs ++ [(k, now)] := by
  unfold CooldownManager._cleanup_effect
  exact ⟨eraseA_lookup_none _ _ ha, eraseA_lookup_none _ _ ht, rfl⟩

/-- Witness for C1_amended_stale_timer: the state reached by activating
egg `666` and then force-cleaning it satisfies both absence hypotheses,
and the stale callback leaves the maps unchanged while still logging one
cleanup-callback invocation. -/
theorem C1_amended_stale_timer_witness :
    (CooldownManager._cleanup_effect
        ((CooldownManager.init.activate_easter_egg "666" 1800 (some 300) true 0).force_cleanup "666")
        "666" 300).active_effects
      = ((CooldownManager.init.activate_easter_egg "666" 1800 (some 300) true 0).force_cleanup "666").active_effects
    ∧ (CooldownManager._cleanup_effect
        ((CooldownManager.init.activate_easter_egg "666" 1800 (some 300) true 0).force_cleanup "666")
        "666" 300).cleanup_timers
      = ((CooldownManager.init.activate_easter_egg "666" 1800 (some 300) true 0).force_cleanup "666").cleanup_timers
    ∧ (CooldownManager._cleanup_effect
        ((CooldownManager.init.activate_easter_egg "666" 1800 (some 300) true 0).force_cleanup "666")
        "666" 300).cleanup_runs
      = ((CooldownManager.init.activate_easter_egg "666" 1800 (some 300) true 0).force_cleanup "666").cleanup_runs
          ++ [("666", 300)] :=
  C1_amended_stale_timer
    ((CooldownManager.init.activate_easter_egg "666" 1800 (some 300) true 0).force_cleanup "666")
    "666" 300 (by decide) (by decide)

/-! ## C3 — cooldown gate -/

/-- Claim C3: `can_activate(key, cooldownSeconds)` is true iff
`now - lastActivation[key] >= cooldownSeconds`, where an absent key reads
as `lastActivation = 0`; consequently, after `activate(K, ...)` at time
`t0`, `canActivate(K, C)` is false at every time in `[t0, t0 + C)` and
true at `t0 + C`. -/
theorem C3_cooldown_gate (s : CooldownManager) (k : String) (c t0 : Int)
    (ed : Option Int) (hc : Bool) :
    (∀ now : Int, s.can_activate k c now = true ↔
        c ≤ now - (lookupA s.last_activation k).getD 0)
    ∧ (lookupA s.last_activation k = none →
        ∀ now : Int, s.can_activate k c now = true ↔ c ≤ now - 0)
    ∧ (∀ t : Int, t0 ≤ t → t < t0 + c →
        (s.activate_easter_egg k c ed hc t0).can_activate k c t = false)
    ∧ (s.activate_easter_egg k c ed hc t0).can_activate k c (t0 + c) = true := by
  refine ⟨fun now => by simp [CooldownManager.can_activate], ?_, ?_, ?_⟩
  · intro habs now
    simp [CooldownManager.can_activate, habs]
  · intro t _ ht
    simp [CooldownManager.can_activate, activate_last_activation, lookupA_insertA_self]
    omega
  · simp [CooldownManager.can_activate, activate_last_activation, lookupA_insertA_self]

/-- Witness for C3_cooldown_gate: egg `404` with a 60-second cooldown
activated at time 1000 cannot be re-activated at 1030 or 1059 and can be
re-activated at exactly 1060; the gate formula also holds for a fresh
manager where the key is absent. -/
theorem C3_cooldown_gate_witness :
    ((CooldownManager.init.activate_easter_egg "404" 60 none false 1000).can_activate "404" 60 1030 = false)
    ∧ ((CooldownManager.init.activate_easter_egg "404" 60 none false 1000).can_activate "404" 60 1059 = false)
    ∧ ((CooldownManager.init.activate_easter_egg "404" 60 none false 1000).can_activate "404" 60 1060 = true)
    ∧ (CooldownManager.init.can_activate "404" 60 59 = true ↔ (60 : Int) ≤ 59 - 0) := by
  obtain ⟨h1, h2, h3, h4⟩ := C3_cooldown_gate CooldownManager.init "404" 60 1000 none false
  exact ⟨h3 1030 (by decide) (by decide), h3 1059 (by decide) (by decide), h4,
    h2 (by decide) 59⟩

/-! ## C2 — effect expiry exactly once -/

theorem activate_fresh (s : CooldownManager) (k : String) (c D t0 : Int) (hD : D ≠ 0)
    (hnone : lookupA s.cleanup_timers k = none) :
    s.activate_easter_egg k c (some D) true t0 =
      { s with
        last_activation := insertA s.last_activation k t0,
        active_effects := insertA s.active_effects k (t0 + D),
        timers := s.timers ++ [⟨k, t0 + D, false, false⟩],
        cleanup_timers := insertA s.cleanup_timers k s.timers.length } := by
  simp [CooldownManager.activate_easter_egg, hD, hnone]

theorem activate_replace (s : CooldownManager) (k : String) (c D t0 : Int) (hD : D ≠ 0)
    (tid : Nat) (hsome : lookupA s.cleanup_timers k = some tid) :
    s.activate_easter_egg k c (some D) true t0 =
      { s with
        last_activation := insertA s.last_activation k t0,
        active_effects := insertA s.active_effects k (t0 + D),
        timers := modifyAt (fun u => { u with cancelled := true }) s.timers tid
            ++ [⟨k, t0 + D, false, false⟩],
        cleanup_timers := insertA s.cleanup_timers k
            (modifyAt (fun u => { u with cancelled := true }) s.timers tid).length } := by
  simp [CooldownManager.activate_easter_egg, hD, hsome]

/-- Claim C2: after `activate(K, C, D, cleanup)` at `t0` on a fresh
manager, letting every fireable timer fire runs the cleanup callback
exactly once, at its scheduled time `t0 + D`; and when `activate(K, ...)`
is called again at `t1` before `D` elapses, the second call cancels the
first pending cleanup timer (first conjunct of the pair: the timer pool
holds exactly the cancelled first timer and the live second one), so over
the whole run the cleanup fires exactly once, at the second activation's
expiry `t1 + D'` — never both. -/
theorem C2_effect_expiry_exactly_once (k : String) (c c' t0 t1 D D' : Int)
    (hD : D ≠ 0) (hD' : D' ≠ 0) (hre : t1 < t0 + D) :
    (CooldownManager.fire_all
        (CooldownManager.init.activate_easter_egg k c (some D) true t0)).cleanup_runs
      = [(k, t0 + D)]
    ∧ ((CooldownManager.init.activate_easter_egg k c (some D) true t0).activate_easter_egg
        k c' (some D') true t1).timers.map CleanupTimer.cancelled = [true, false]
    ∧ (CooldownManager.fire_all
        ((CooldownManager.init.activate_easter_egg k c (some D) true t0).activate_easter_egg
          k c' (some D') true t1)).cleanup_runs
      = [(k, t1 + D')] := by
  have hr1 : List.range 1 = [0] := by decide
  have hr2 : List.range 2 = [0, 1] := by decide
  have h1 : CooldownManager.init.activate_easter_egg k c (some D) true t0
      = ⟨[(k, t0)], [(k, t0 + D)], [(k, 0)], [⟨k, t0 + D, false, false⟩], []⟩ := by
    rw [activate_fresh CooldownManager.init k c D t0 hD (by simp [CooldownManager.init, lookupA])]
    simp [CooldownManager.init, insertA]
  have h2 : (CooldownManager.init.activate_easter_egg k c (some D) true t0).activate_easter_egg
        k c' (some D') true t1
      = ⟨[(k, t1)], [(k, t1 + D')], [(k, 1)],
         [⟨k, t0 + D, true, false⟩, ⟨k, t1 + D', false, false⟩], []⟩ := by
    rw [h1]
    rw [activate_replace _ k c' D' t1 hD' 0 (by simp [lookupA])]
    simp [insertA, modifyAt]
  refine ⟨?_, ?_, ?_⟩
  · rw [h1]
    simp [CooldownManager.fire_all, hr1, CooldownManager.fire_timer,
      CooldownManager._cleanup_effect, eraseA, modifyAt, lookupA]
  · rw [h2]
    simp
  · rw [h2]
    simp [CooldownManager.fire_all, hr2, CooldownManager.fire_timer,
      CooldownManager._cleanup_effect, eraseA, modifyAt, lookupA]

/-- Witness for C2_effect_expiry_exactly_once: egg `420` with a
1200-second effect activated at time 0 and re-activated at time 1000
(before the first expiry at 1200) yields exactly one cleanup run, at
2200. -/
theorem C2_effect_expiry_exactly_once_witness :
    (CooldownManager.fire_all
        (CooldownManager.init.activate_easter_egg "420" 2520 (some 1200) true 0)).cleanup_runs
      = [("420", 0 + 1200)]
    ∧ (CooldownManager.fire_all
        ((CooldownManager.init.activate_easter_egg "420" 2520 (some 1200) true 0).activate_easter_egg
          "420" 2520 (some 1200) true 1000)).cleanup_runs
      = [("420", 1000 + 1200)] := by
  have h := C2_effect_expiry_exactly_once "420" 2520 2520 0 1000 1200 1200
    (by decide) (by decide) (by decide)
  exact ⟨h.1, h.2.2⟩

/-! ## C5 — cooldown consumed before the action, never rolled back -/

/-- Claim C5: in `trigger_easter_egg`, when the cooldown gate passes, the
activation is recorded (`lastActivation[key] = now`, plus any scheduled
effect/cleanup) before the registered action runs, the method returns
`True`, and the resulting manager state does not depend on whether the
action raised — the caught exception rolls nothing back. -/
theorem C5_cooldown_consumed_not_rolled_back (reg : List (String × EggConfig))
    (s : CooldownManager) (k : String) (cfg : EggConfig) (now : Int) (b : Bool)
    (hcfg : lookupA reg k = some cfg)
    (hcan : s.can_activate k cfg.cooldown now = true) :
    (s.trigger_easter_egg reg k now b).1
        = s.activate_easter_egg k cfg.cooldown cfg.duration cfg.has_cleanup now
    ∧ lookupA (s.trigger_easter_egg reg k now b).1.last_activation k = some now
    ∧ (s.trigger_easter_egg reg k now b).2 = true
    ∧ (s.trigger_easter_egg reg k now true).1 = (s.trigger_easter_egg reg k now false).1 := by
  unfold CooldownManager.trigger_easter_egg
  rw [hcfg]
  simp [hcan, activate_last_activation, lookupA_insertA_self]

/-- Witness for C5_cooldown_consumed_not_rolled_back: triggering egg
`8888` (5-second cooldown) at time 10 on a fresh manager with a raising
action still returns `True` and leaves `lastActivation` at 10. -/
theorem C5_cooldown_consumed_not_rolled_back_witness :
    (CooldownManager.init.trigger_easter_egg
        [("8888", ⟨"Magic 8 Ball!", some "8888", 5, none, false⟩)] "8888" 10 true).2 = true
    ∧ lookupA (CooldownManager.init.trigger_easter_egg
        [("8888", ⟨"Magic 8 Ball!", some "8888", 5, none, false⟩)] "8888" 10 true).1.last_activation
        "8888" = some 10 := by
  have h := C5_cooldown_consumed_not_rolled_back
    [("8888", ⟨"Magic 8 Ball!", some "8888", 5, none, false⟩)] CooldownManager.init "8888"
    ⟨"Magic 8 Ball!", some "8888", 5, none, false⟩ 10 true (by decide) (by decide)
  exact ⟨h.2.2.1, h.2.1⟩

/-! ## C7 — tune: validation, publication, fallback -/

/-- Claim C7: for `n` not in the valid channel list, `tune_to_channel(n)`
leaves the current channel unchanged (displaying the rejection code and
then the unchanged current channel) and publishes a record with command
`direct`, channel `n`, `valid=False` and the unchanged current channel as
`fallback_channel`; for `n` in the list it sets the current channel to `n`
and publishes `valid=True` (with no fallback field). -/
theorem C7_tune_publish (s : Dialer) (n : Nat) :
    (n ∉ VALID_CHANNELS →
      (s.tune_to_channel n).current_channel = s.current_channel
      ∧ (s.tune_to_channel n).published
          = s.published ++ [⟨"direct", n, some false, some s.current_channel⟩]
      ∧ (s.tune_to_channel n).display_log
          = s.display_log ++
              [DisplayOp.text "NOPE", DisplayOp.number (NumArg.int (s.current_channel : Int))])
    ∧ (n ∈ VALID_CHANNELS →
      (s.tune_to_channel n).current_channel = n
      ∧ (s.tune_to_channel n).published = s.published ++ [⟨"direct", n, some true, none⟩]) := by
  constructor
  · intro h
    simp [Dialer.tune_to_channel, h]
  · intro h
    simp [Dialer.tune_to_channel, h]

/-- Witness for C7_tune_publish: the spec scenario — `tune(12)` on a fresh
dialer (current channel 1) keeps channel 1 and publishes the invalid
attempt with fallback 1, while `tune(2)` switches to 2 with
`valid=True`. -/
theorem C7_tune_publish_witness :
    (Dialer.init.tune_to_channel 12).current_channel = 1
    ∧ (Dialer.init.tune_to_channel 12).published
        = [⟨"direct", 12, some false, some 1⟩]
    ∧ (Dialer.init.tune_to_channel 2).current_channel = 2
    ∧ (Dialer.init.tune_to_channel 2).published = [⟨"direct", 2, some true, none⟩] := by
  have h12 := (C7_tune_publish Dialer.init 12).1 (by decide)
  have h2 := (C7_tune_publish Dialer.init 2).2 (by decide)
  refine ⟨h12.1.trans (by decide), h12.2.1.trans (by decide), h2.1, h2.2.trans (by decide)⟩

/-! ## C8 — channel step with wraparound -/

theorem channelIndex_lt (c : Nat) : channelIndex c < 6 := by
  simp only [channelIndex, VALID_CHANNELS, indexOfFrom]
  split_ifs <;> simp

theorem VALID_CHANNELS_getD_mem (j : Nat) (h : j < 6) :
    VALID_CHANNELS.getD j 0 ∈ VALID_CHANNELS := by
  interval_cases j <;> decide

/-- Claim C8: `channel_up` / `channel_down` move the current channel to
`list[(indexOf(current) + direction) mod len(list)]` with index 0 used
when the current channel is not in the list and a modulo that is
non-negative even for a negative left operand (so the result is always a
member of the list); in particular, with valid list [1,2,3,8,9,13],
stepping up from 13 yields 1 and stepping down from 1 yields 13. -/
theorem C8_channel_step (s : Dialer) :
    (Dialer.channel_up { s with current_channel := 13 }).current_channel = 1
    ∧ (Dialer.channel_down { s with current_channel := 1 }).current_channel = 13
    ∧ (Dialer.channel_up { s with current_channel := 7 }).current_channel = 2
    ∧ (Dialer.channel_down { s with current_channel := 7 }).current_channel = 13
    ∧ s.channel_up.current_channel
        = VALID_CHANNELS.getD
            ((((channelIndex s.current_channel : Int) + 1) % (VALID_CHANNELS.length : Int)).toNat) 0
    ∧ s.channel_down.current_channel
        = VALID_CHANNELS.getD
            ((((channelIndex s.current_channel : Int) - 1) % (VALID_CHANNELS.length : Int)).toNat) 0
    ∧ s.channel_up.current_channel ∈ VALID_CHANNELS
    ∧ s.channel_down.current_channel ∈ VALID_CHANNELS := by
  have hup : ((((channelIndex s.current_channel : Int) + 1) % (VALID_CHANNELS.length : Int)).toNat) < 6 := by
    have h1 := Int.emod_nonneg ((channelIndex s.current_channel : Int) + 1)
      (by decide : ((VALID_CHANNELS.length : Int)) ≠ 0)
    have h2 := Int.emod_lt_of_pos ((channelIndex s.current_channel : Int) + 1)
      (by decide : (0 : Int) < (VALID_CHANNELS.length : Int))
    simp [VALID_CHANNELS] at h1 h2 ⊢
    omega
  have hdown : ((((channelIndex s.current_channel : Int) - 1) % (VALID_CHANNELS.length : Int)).toNat) < 6 := by
    have h1 := Int.emod_nonneg ((channelIndex s.current_channel : Int) - 1)
      (by decide : ((VALID_CHANNELS.length : Int)) ≠ 0)
    have h2 := Int.emod_lt_of_pos ((channelIndex s.current_channel : Int) - 1)
      (by decide : (0 : Int) < (VALID_CHANNELS.length : Int))
    simp [VALID_CHANNELS] at h1 h2 ⊢
    omega
  have h5 : s.channel_up.current_channel
      = VALID_CHANNELS.getD
          ((((channelIndex s.current_channel : Int) + 1) % (VALID_CHANNELS.length : Int)).toNat) 0 := by
    simp [Dialer.channel_up]
  have h6 : s.channel_down.current_channel
      = VALID_CHANNELS.getD
          ((((channelIndex s.current_channel : Int) - 1) % (VALID_CHANNELS.length : Int)).toNat) 0 := by
    simp [Dialer.channel_down]
  refine ⟨?_, ?_, ?_, ?_, h5, h6, ?_, ?_⟩
  · simp [Dialer.channel_up, channelIndex, indexOfFrom, VALID_CHANNELS]
  · simp [Dialer.channel_down, channelIndex, indexOfFrom, VALID_CHANNELS]
  · simp [Dialer.channel_up, channelIndex, indexOfFrom, VALID_CHANNELS]
  · simp [Dialer.channel_down, channelIndex, indexOfFrom, VALID_CHANNELS]
  · rw [h5]
    exact VALID_CHANNELS_getD_mem _ hup
  · rw [h6]
    exact VALID_CHANNELS_getD_mem _ hdown

/-! ## C10 — display_number truncation -/

/-- Claim C10: `display_number` sends `DISP:` followed by exactly the
first four characters of a string argument, preserving leading zeros and
lowercase letters, while a non-string number is first converted via
`str(int(number))` and then truncated; hence the digit-echo of the buffer
`80085` shows `8008`. -/
theorem C10_display_number_truncation (s : String) (n : Int) :
    DisplayController.display_number (NumArg.str s) = "DISP:" ++ String.mk (s.data.take 4)
    ∧ DisplayController.display_number (NumArg.int n)
        = "DISP:" ++ String.mk ((toString n).data.take 4)
    ∧ DisplayController.display_number (NumArg.str "80085") = "DISP:8008"
    ∧ DisplayController.display_number (NumArg.str "0012") = "DISP:0012"
    ∧ DisplayController.display_number (NumArg.str "abcde") = "DISP:abcd"
    ∧ DisplayController.display_number (NumArg.int 80085) = "DISP:8008"
    ∧ (List.map renderOp
        (([8, 0, 0, 8, 5].foldl (Dialer.add_digit noEggs okOutcome) Dialer.init).display_log)).getLast?
        = some "DISP:8008" := by
  refine ⟨rfl, rfl, rfl, rfl, rfl, rfl, rfl⟩

/-! ## C6 — at most one live resolve timer -/

theorem countP_le_one_of_uniform {α : Type} (p : α → Bool) (f : α → Nat) (c : Nat)
    (l : List α) (hnd : (l.map f).Nodup) (hu : ∀ x ∈ l, p x = true → f x = c) :
    l.countP p ≤ 1 := by
  induction l with
  | nil => simp
  | cons a tl ih =>
    rw [List.map_cons, List.nodup_cons] at hnd
    by_cases hpa : p a = true
    · have hfa : f a = c := hu a (List.mem_cons_self a tl) hpa
      have htl : tl.countP p = 0 := by
        rw [List.countP_eq_zero]
        intro x hx hpx
        have hfx : f x = c := hu x (List.mem_cons_of_mem a hx) hpx
        apply hnd.1
        have hm : f x ∈ tl.map f := List.mem_map_of_mem f hx
        rwa [hfx, ← hfa] at hm
      rw [List.countP_cons_of_pos _ _ hpa, htl]
    · rw [List.countP_cons_of_neg _ _ hpa]
      exact ih hnd.2 (fun x hx hpx => hu x (List.mem_cons_of_mem a hx) hpx)

theorem liveCount_le_one_of_inv (s : Dialer) (h : s.timerInv) : s.liveCount ≤ 1 := by
  obtain ⟨h1, _, h3⟩ := h
  unfold Dialer.liveCount
  cases hT : s.timer with
  | none =>
    have hz : s.timers.countP (fun t => !t.cancelled && !t.fired) = 0 := by
      rw [List.countP_eq_zero]
      intro t ht hp
      simp only [Bool.and_eq_true, Bool.not_eq_true'] at hp
      have hsome := h1 t ht hp.1 hp.2
      rw [hT] at hsome
      exact Option.noConfusion hsome
    rw [hz]
    omega
  | some tid =>
    refine countP_le_one_of_uniform _ ResolveTimer.tid tid s.timers h3 ?_
    intro t ht hp
    simp only [Bool.and_eq_true, Bool.not_eq_true'] at hp
    have hsome := h1 t ht hp.1 hp.2
    rw [hT] at hsome
    exact (Option.some.inj hsome).symm

theorem timerInv_init : Dialer.init.timerInv := by
  refine ⟨?_, ?_, ?_⟩ <;> simp [Dialer.init]

theorem cancel_timer_fields (s : Dialer) :
    s.cancel_timer.timer = none
    ∧ s.cancel_timer.digit_queue = s.digit_queue
    ∧ s.cancel_timer.next_timer_id = s.next_timer_id
    ∧ s.cancel_timer.timers.map ResolveTimer.tid = s.timers.map ResolveTimer.tid
    ∧ s.cancel_timer.current_channel = s.current_channel
    ∧ s.cancel_timer.triggered = s.triggered := by
  cases hT : s.timer with
  | none => simp [Dialer.cancel_timer, hT]
  | some hid =>
    have hmap : s.cancel_timer.timers.map ResolveTimer.tid = s.timers.map ResolveTimer.tid := by
      simp only [Dialer.cancel_timer, hT]
      rw [List.map_map]
      refine List.map_congr_left ?_
      intro t _
      by_cases htid : t.tid = hid <;> simp [Function.comp, htid]
    refine ⟨?_, ?_, ?_, hmap, ?_, ?_⟩ <;> simp [Dialer.cancel_timer, hT]

theorem cancel_timer_dead (s : Dialer) (h : s.timerInv) :
    ∀ t ∈ s.cancel_timer.timers, t.cancelled = true ∨ t.fired = true := by
  obtain ⟨h1, _, _⟩ := h
  cases hT : s.timer with
  | none =>
    simp only [Dialer.cancel_timer, hT]
    intro t ht
    by_contra hcon
    push_neg at hcon
    have hsome := h1 t ht (by simpa using hcon.1) (by simpa using hcon.2)
    rw [hT] at hsome
    exact Option.noConfusion hsome
  | some hid =>
    simp only [Dialer.cancel_timer, hT]
    intro t ht
    simp only [List.mem_map] at ht
    obtain ⟨t', ht', rfl⟩ := ht
    by_cases htid : t'.tid = hid
    · simp [htid]
    · simp only [htid, if_false]
      by_contra hcon
      push_neg at hcon
      have hsome := h1 t' ht' (by simpa using hcon.1) (by simpa using hcon.2)
      rw [hT] at hsome
      exact htid (Option.some.inj hsome).symm

theorem timerInv_of_dead (s : Dialer)
    (hdead : ∀ t ∈ s.timers, t.cancelled = true ∨ t.fired = true)
    (hb : ∀ t ∈ s.timers, t.tid < s.next_timer_id)
    (hnd : (s.timers.map ResolveTimer.tid).Nodup) : s.timerInv := by
  refine ⟨?_, hb, hnd⟩
  intro t ht hc hf
  rcases hdead t ht with h | h
  · rw [hc] at h
    exact Bool.noConfusion h
  · rw [hf] at h
    exact Bool.noConfusion h

theorem cancel_timer_inv (s : Dialer) (h : s.timerInv) : s.cancel_timer.timerInv := by
  refine timerInv_of_dead _ (cancel_timer_dead s h) ?_ ?_
  · intro t ht
    have hmem : t.tid ∈ s.cancel_timer.timers.map ResolveTimer.tid := List.mem_map_of_mem _ ht
    rw [(cancel_timer_fields s).2.2.2.1] at hmem
    rw [(cancel_timer_fields s).2.2.1]
    simp only [List.mem_map] at hmem
    obtain ⟨t', ht', htid⟩ := hmem
    rw [← htid]
    exact h.2.1 t' ht'
  · rw [(cancel_timer_fields s).2.2.2.1]
    exact h.2.2

theorem timerInv_eta (s s' : Dialer) (ht : s'.timers = s.timers) (hh : s'.timer = s.timer)
    (hn : s'.next_timer_id = s.next_timer_id) (h : s.timerInv) : s'.timerInv := by
  obtain ⟨h1, h2, h3⟩ := h
  refine ⟨?_, ?_, ?_⟩
  · intro t htm hc hf
    rw [hh]
    exact h1 t (ht ▸ htm) hc hf
  · intro t htm
    rw [hn]
    exact h2 t (ht ▸ htm)
  · rw [ht]
    exact h3

theorem arm_timer_inv (s : Dialer)
    (hdead : ∀ t ∈ s.timers, t.cancelled = true ∨ t.fired = true)
    (hb : ∀ t ∈ s.timers, t.tid < s.next_timer_id)
    (hnd : (s.timers.map ResolveTimer.tid).Nodup) : s.arm_timer.timerInv := by
  refine ⟨?_, ?_, ?_⟩
  · intro t ht hc hf
    simp only [Dialer.arm_timer, List.mem_append, List.mem_singleton] at ht
    rcases ht with ht | rfl
    · rcases hdead t ht with hx | hx
      · rw [hc] at hx
        exact Bool.noConfusion hx
      · rw [hf] at hx
        exact Bool.noConfusion hx
    · rfl
  · intro t ht
    simp only [Dialer.arm_timer, List.mem_append, List.mem_singleton] at ht
    rcases ht with ht | rfl
    · have := hb t ht
      simp only [Dialer.arm_timer]
      omega
    · simp only [Dialer.arm_timer]
      omega
  · simp only [Dialer.arm_timer, List.map_append]
    rw [List.nodup_append]
    refine ⟨hnd, by simp, ?_⟩
    intro x hx
    simp only [List.mem_map] at hx
    obtain ⟨t, ht, rfl⟩ := hx
    have := hb t ht
    simp
    omega

theorem add_digit_inv (H : EggHandler) (oc : String → Outcome) (s : Dialer)
    (h : s.timerInv) (d : Nat) : (Dialer.add_digit H oc s d).timerInv := by
  simp only [Dialer.add_digit]
  have h1 : ({ s with
      digit_queue := s.digit_queue ++ (Nat.repr d).data,
      display_log := s.display_log ++
        [DisplayOp.number (NumArg.str (String.mk (s.digit_queue ++ (Nat.repr d).data)))] } : Dialer).timerInv :=
    timerInv_eta _ _ rfl rfl rfl h
  split
  · exact timerInv_eta _ _ rfl rfl rfl (cancel_timer_inv _ h1)
  · exact arm_timer_inv _ (cancel_timer_dead _ h1)
      (cancel_timer_inv _ h1).2.1 (cancel_timer_inv _ h1).2.2

theorem clear_queue_inv (s : Dialer) (h : s.timerInv) : s.clear_queue.timerInv := by
  simp only [Dialer.clear_queue]
  exact timerInv_eta _ _ rfl rfl rfl
    (cancel_timer_inv _ (timerInv_eta _ _ rfl rfl rfl h))

theorem cleanup_inv (s : Dialer) (h : s.timerInv) : s.cleanup.timerInv := by
  simp only [Dialer.cleanup]
  exact cancel_timer_inv _ (timerInv_eta _ _ rfl rfl rfl h)

theorem tune_inv (s : Dialer) (n : Nat) (h : s.timerInv) : (s.tune_to_channel n).timerInv := by
  unfold Dialer.tune_to_channel
  split
  · exact timerInv_eta _ _ rfl rfl rfl h
  · exact timerInv_eta _ _ rfl rfl rfl h

theorem up_inv (s : Dialer) (h : s.timerInv) : s.channel_up.timerInv := by
  simp only [Dialer.channel_up]
  exact timerInv_eta _ _ rfl rfl rfl h

theorem down_inv (s : Dialer) (h : s.timerInv) : s.channel_down.timerInv := by
  simp only [Dialer.channel_down]
  exact timerInv_eta _ _ rfl rfl rfl h

theorem process_channel_fields (H : EggHandler) (oc : String → Outcome) (s : Dialer) :
    (Dialer._process_channel H oc s).timers = s.timers
    ∧ (Dialer._process_channel H oc s).next_timer_id = s.next_timer_id := by
  unfold Dialer._process_channel Dialer.tune_to_channel
  split
  · exact ⟨rfl, rfl⟩
  · dsimp only
    split
    · exact ⟨rfl, rfl⟩
    · split
      · split
        · exact ⟨rfl, rfl⟩
        · exact ⟨rfl, rfl⟩
      · exact ⟨rfl, rfl⟩

theorem fire_resolve_inv (H : EggHandler) (oc : String → Outcome) (s : Dialer) (tid : Nat)
    (h : s.timerInv) : (Dialer.fire_resolve H oc s tid).timerInv := by
  unfold Dialer.fire_resolve
  split
  case isTrue hlive =>
    have hsome : s.timer = some tid := by
      rcases List.any_eq_true.mp hlive with ⟨t, ht, hp⟩
      simp only [Bool.and_eq_true, beq_iff_eq, Bool.not_eq_true'] at hp
      have hs := h.1 t ht hp.1.2 hp.2
      rw [hp.1.1] at hs
      exact hs
    have hdead : ∀ u ∈ (s.timers.map
        (fun t => if t.tid = tid then { t with fired := true } else t)),
        u.cancelled = true ∨ u.fired = true := by
      intro u hu
      simp only [List.mem_map] at hu
      obtain ⟨t', ht', rfl⟩ := hu
      by_cases htid : t'.tid = tid
      · simp [htid]
      · simp only [htid, if_false]
        by_contra hcon
        push_neg at hcon
        have hs := h.1 t' ht' (by simpa using hcon.1) (by simpa using hcon.2)
        rw [hsome] at hs
        exact htid (Option.some.inj hs).symm
    have hb : ∀ u ∈ (s.timers.map
        (fun t => if t.tid = tid then { t with fired := true } else t)),
        u.tid < s.next_timer_id := by
      intro u hu
      simp only [List.mem_map] at hu
      obtain ⟨t', ht', rfl⟩ := hu
      by_cases htid : t'.tid = tid <;> simp [htid] <;> simpa [htid] using h.2.1 t' ht'
    have hnd : ((s.timers.map
        (fun t => if t.tid = tid then { t with fired := true } else t)).map
          ResolveTimer.tid).Nodup := by
      rw [List.map_map]
      have hcongr : s.timers.map
          (ResolveTimer.tid ∘ fun t => if t.tid = tid then { t with fired := true } else t)
          = s.timers.map ResolveTimer.tid := by
        refine List.map_congr_left ?_
        intro t _
        by_cases htid : t.tid = tid <;> simp [Function.comp, htid]
      rw [hcongr]
      exact h.2.2
    refine timerInv_of_dead _ ?_ ?_ ?_
    · rw [(process_channel_fields H oc _).1]
      exact hdead
    · rw [(process_channel_fields H oc _).1, (process_channel_fields H oc _).2]
      exact hb
    · rw [(process_channel_fields H oc _).1]
      exact hnd
  case isFalse => exact h

theorem timerInv_reachable (H : EggHandler) (oc : String → Outcome) {s : Dialer}
    (h : Dialer.Reachable H oc s) : s.timerInv := by
  induction h with
  | init => exact timerInv_init
  | add_digit _ _ ih => exact add_digit_inv _ _ _ ih _
  | clear_queue _ ih => exact clear_queue_inv _ ih
  | fire _ ih => exact fire_resolve_inv _ _ _ _ ih
  | tune _ ih => exact tune_inv _ _ ih
  | up _ ih => exact up_inv _ ih
  | down _ ih => exact down_inv _ ih
  | cleanup _ ih => exact cleanup_inv _ ih

/-- Claim C6: at every state the dialer can reach, at most one live
pending resolve timer exists — every `add_digit`, immediate match, clear,
and timeout resolution cancels or retires the existing timer before a
replacement is armed, so the count of created-but-neither-cancelled-nor-
fired timers never exceeds one. -/
theorem C6_at_most_one_live_timer (H : EggHandler) (oc : String → Outcome) (s : Dialer)
    (h : Dialer.Reachable H oc s) : s.liveCount ≤ 1 :=
  liveCount_le_one_of_inv s (timerInv_reachable H oc h)

/-- Witness for C6_at_most_one_live_timer: after one digit on a fresh
dialer (a state with exactly one armed resolve timer) the live count is at
most one. -/
theorem C6_at_most_one_live_timer_witness :
    (Dialer.add_digit noEggs okOutcome Dialer.init 1).liveCount ≤ 1 :=
  C6_at_most_one_live_timer noEggs okOutcome _
    (Dialer.Reachable.add_digit Dialer.Reachable.init (by decide))

/-! ## C9 — only digit characters ever reach the parser -/

theorem repr_digit_chars (d : Nat) (hd : d ≤ 9) :
    ∀ c ∈ (Nat.repr d).data, c.isDigit = true := by
  interval_cases d <;> decide

theorem add_digit_queue (H : EggHandler) (oc : String → Outcome) (s : Dialer) (d : Nat) :
    (Dialer.add_digit H oc s d).digit_queue = []
    ∨ (Dialer.add_digit H oc s d).digit_queue = s.digit_queue ++ (Nat.repr d).data := by
  simp only [Dialer.add_digit]
  split
  · left
    rfl
  · right
    exact (cancel_timer_fields _).2.1

theorem clear_queue_queue (s : Dialer) : s.clear_queue.digit_queue = [] := by
  simp only [Dialer.clear_queue]
  exact (cancel_timer_fields _).2.1

theorem cleanup_queue (s : Dialer) : s.cleanup.digit_queue = [] := by
  simp only [Dialer.cleanup]
  exact (cancel_timer_fields _).2.1

theorem tune_queue (s : Dialer) (n : Nat) :
    (s.tune_to_channel n).digit_queue = s.digit_queue := by
  unfold Dialer.tune_to_channel
  split
  · rfl
  · rfl

theorem process_channel_queue (H : EggHandler) (oc : String → Outcome) (s : Dialer) :
    (Dialer._process_channel H oc s).digit_queue = []
    ∨ (Dialer._process_channel H oc s).digit_queue = s.digit_queue := by
  unfold Dialer._process_channel
  split
  · right
    rfl
  · left
    rfl

theorem digits_reachable (H : EggHandler) (oc : String → Outcome) {s : Dialer}
    (h : Dialer.Reachable H oc s) : ∀ c ∈ s.digit_queue, c.isDigit = true := by
  induction h with
  | init =>
    intro c hc
    simp [Dialer.init] at hc
  | add_digit _ hd ih =>
    intro c hc
    rcases add_digit_queue _ _ _ _ with hq | hq
    · rw [hq] at hc
      simp at hc
    · rw [hq] at hc
      rcases List.mem_append.mp hc with hx | hx
      · exact ih c hx
      · exact repr_digit_chars _ hd c hx
  | clear_queue _ _ =>
    intro c hc
    rw [clear_queue_queue] at hc
    simp at hc
  | fire _ ih =>
    intro c hc
    revert hc
    unfold Dialer.fire_resolve
    split
    · intro hc
      rcases process_channel_queue H oc _ with hq | hq
      · rw [hq] at hc
        simp at hc
      · rw [hq] at hc
        exact ih c hc
    · intro hc
      exact ih c hc
  | tune _ ih =>
    intro c hc
    rw [tune_queue] at hc
    exact ih c hc
  | up _ ih =>
    intro c hc
    exact ih c hc
  | down _ ih =>
    intro c hc
    exact ih c hc
  | cleanup _ _ =>
    intro c hc
    rw [cleanup_queue] at hc
    simp at hc

/-- Claim C9: when every digit fed to `add_digit` lies in 0..9 (the
documented input domain enforced by the reachability relation), the digit
buffer only ever holds the characters 0-9, so the integer parse of a
non-empty buffer in `_process_channel` always succeeds — the `ValueError`
branch is unreachable. -/
theorem C9_parse_failure_unreachable (H : EggHandler) (oc : String → Outcome) (s : Dialer)
    (h : Dialer.Reachable H oc s) :
    (∀ c ∈ s.digit_queue, c.isDigit = true)
    ∧ (s.digit_queue ≠ [] → (parseChannel s.digit_queue).isSome = true) := by
  refine ⟨digits_reachable H oc h, ?_⟩
  intro hne
  unfold parseChannel
  rw [if_pos]
  · rfl
  · exact ⟨hne, List.all_eq_true.mpr (fun c hc => digits_reachable H oc h c hc)⟩

/-- Witness for C9_parse_failure_unreachable: after typing digit 1 on a
fresh dialer the (non-empty) buffer parses successfully. -/
theorem C9_parse_failure_unreachable_witness :
    (parseChannel (Dialer.add_digit noEggs okOutcome Dialer.init 1).digit_queue).isSome = true :=
  (C9_parse_failure_unreachable noEggs okOutcome _
    (Dialer.Reachable.add_digit Dialer.Reachable.init (by decide))).2 (by decide)

/-! ## C4 — immediate special-key match clears the buffer -/

theorem digitChars_append (p : List Nat) (d : Nat) :
    digitChars (p ++ [d]) = digitChars p ++ (Nat.repr d).data := by
  simp [digitChars]

theorem liveCount_zero_of_dead (s : Dialer)
    (hdead : ∀ t ∈ s.timers, t.cancelled = true ∨ t.fired = true) : s.liveCount = 0 := by
  unfold Dialer.liveCount
  rw [List.countP_eq_zero]
  intro t ht
  rcases hdead t ht with h | h <;> simp [h]

theorem reachable_foldl (H : EggHandler) (oc : String → Outcome) (p : List Nat)
    (hp : ∀ x ∈ p, x ≤ 9) (s : Dialer) (hs : Dialer.Reachable H oc s) :
    Dialer.Reachable H oc (p.foldl (Dialer.add_digit H oc) s) := by
  induction p generalizing s with
  | nil => exact hs
  | cons a tl ih =>
    rw [List.foldl_cons]
    exact ih (fun x hx => hp x (List.mem_cons_of_mem a hx))
      _ (Dialer.Reachable.add_digit hs (hp a (List.mem_cons_self a tl)))

theorem add_digit_nomatch (H : EggHandler) (oc : String → Outcome) (s : Dialer) (d : Nat)
    (hmiss : H.registered (String.mk (s.digit_queue ++ (Nat.repr d).data)) = false) :
    (Dialer.add_digit H oc s d).digit_queue = s.digit_queue ++ (Nat.repr d).data
    ∧ (Dialer.add_digit H oc s d).triggered = s.triggered := by
  simp only [Dialer.add_digit, check_and_execute]
  rw [if_neg (by simp [hmiss])]
  constructor
  · exact (cancel_timer_fields _).2.1
  · exact (cancel_timer_fields _).2.2.2.2.2

theorem add_digit_match (H : EggHandler) (oc : String → Outcome) (s : Dialer) (d : Nat)
    (hmatch : H.registered (String.mk (s.digit_queue ++ (Nat.repr d).data)) = true) :
    (Dialer.add_digit H oc s d).triggered
        = s.triggered ++ [(String.mk (s.digit_queue ++ (Nat.repr d).data),
            oc (String.mk (s.digit_queue ++ (Nat.repr d).data)))]
    ∧ (Dialer.add_digit H oc s d).digit_queue = []
    ∧ (Dialer.add_digit H oc s d).timer = none
    ∧ (s.timerInv → (Dialer.add_digit H oc s d).liveCount = 0) := by
  simp only [Dialer.add_digit, check_and_execute]
  rw [if_pos hmatch]
  refine ⟨?_, rfl, ?_, ?_⟩
  · dsimp only
    rw [show ∀ x : Dialer, x.cancel_timer.triggered = x.triggered from
      fun x => (cancel_timer_fields x).2.2.2.2.2]
  · exact (cancel_timer_fields _).1
  · intro hinv
    exact liveCount_zero_of_dead _
      (cancel_timer_dead _ (timerInv_eta _ _ rfl rfl rfl hinv))

theorem walk_no_match (H : EggHandler) (oc : String → Outcome) (p : List Nat)
    (hp : ∀ q r, p = q ++ r → q ≠ [] → H.registered (String.mk (digitChars q)) = false) :
    (p.foldl (Dialer.add_digit H oc) Dialer.init).digit_queue = digitChars p
    ∧ (p.foldl (Dialer.add_digit H oc) Dialer.init).triggered = [] := by
  induction p using List.reverseRecOn with
  | nil => exact ⟨rfl, rfl⟩
  | append_singleton p d ih =>
    have hp' : ∀ q r, p = q ++ r → q ≠ [] → H.registered (String.mk (digitChars q)) = false := by
      intro q r heq hq
      exact hp q (r ++ [d]) (by rw [heq, List.append_assoc]) hq
    obtain ⟨ihq, iht⟩ := ih hp'
    have hfull : H.registered (String.mk (digitChars (p ++ [d]))) = false :=
      hp (p ++ [d]) [] (by rw [List.append_nil]) (by simp)
    have hmiss : H.registered (String.mk
        ((p.foldl (Dialer.add_digit H oc) Dialer.init).digit_queue ++ (Nat.repr d).data)) = false := by
      rw [ihq, ← digitChars_append]
      exact hfull
    rw [List.foldl_append]
    simp only [List.foldl_cons, List.foldl_nil]
    obtain ⟨hq1, hq2⟩ := add_digit_nomatch H oc _ d hmiss
    refine ⟨?_, ?_⟩
    · rw [hq1, ihq, ← digitChars_append]
    · rw [hq2, iht]

/-- Claim C4: feeding the successive digits of a registered special key
`K` (no proper non-empty prefix of which is itself registered) into
`add_digit` starting from a fresh dialer triggers `K` exactly once,
immediately on the last digit — within the `add_digit` call itself, with
no resolve-timer firing involved — and leaves the buffer empty, the timer
handle cleared and no live resolve timer armed; and this holds for every
trigger outcome `oc` (success, cooldown-blocked, or failed), since the
clearing does not depend on it. -/
theorem C4_immediate_special_key (H : EggHandler) (oc : String → Outcome)
    (p : List Nat) (d : Nat) (hdigits : ∀ x ∈ p ++ [d], x ≤ 9)
    (hkey : H.registered (String.mk (digitChars (p ++ [d]))) = true)
    (hpre : ∀ q ∈ (p ++ [d]).inits, q ≠ [] → q ≠ p ++ [d] →
      H.registered (String.mk (digitChars q)) = false) :
    ((p ++ [d]).foldl (Dialer.add_digit H oc) Dialer.init).triggered
        = [(String.mk (digitChars (p ++ [d])), oc (String.mk (digitChars (p ++ [d]))))]
    ∧ ((p ++ [d]).foldl (Dialer.add_digit H oc) Dialer.init).digit_queue = []
    ∧ ((p ++ [d]).foldl (Dialer.add_digit H oc) Dialer.init).timer = none
    ∧ ((p ++ [d]).foldl (Dialer.add_digit H oc) Dialer.init).liveCount = 0 := by
  have hwalk : ∀ q r, p = q ++ r → q ≠ [] →
      H.registered (String.mk (digitChars q)) = false := by
    intro q r heq hq
    refine hpre q ?_ hq ?_
    · rw [List.mem_inits]
      exact ⟨r ++ [d], by rw [← List.append_assoc, ← heq]⟩
    · intro hcon
      have hlen := congrArg List.length hcon
      rw [heq] at hlen
      simp [List.length_append] at hlen
  obtain ⟨hq, ht⟩ := walk_no_match H oc p hwalk
  have hreach : Dialer.Reachable H oc (p.foldl (Dialer.add_digit H oc) Dialer.init) :=
    reachable_foldl H oc p
      (fun x hx => hdigits x (List.mem_append.mpr (Or.inl hx))) _ Dialer.Reachable.init
  have hinv := timerInv_reachable H oc hreach
  have hm : H.registered (String.mk
      ((p.foldl (Dialer.add_digit H oc) Dialer.init).digit_queue ++ (Nat.repr d).data)) = true := by
    rw [hq, ← digitChars_append]
    exact hkey
  rw [List.foldl_append]
  simp only [List.foldl_cons, List.foldl_nil]
  obtain ⟨c1, c2, c3, c5⟩ := add_digit_match H oc _ d hm
  refine ⟨?_, c2, c3, c5 hinv⟩
  rw [c1, ht, List.nil_append, hq, ← digitChars_append]

/-- Witness for C4_immediate_special_key: the spec scenario — typing
0,0,0,0 with the flipper registry (where 0000 is registered and no proper
prefix of it is) fires the egg on the fourth digit, clears the buffer and
arms no timer. -/
theorem C4_immediate_special_key_witness :
    (([0, 0, 0] ++ [0]).foldl (Dialer.add_digit flipperHandler okOutcome) Dialer.init).triggered
        = [(String.mk (digitChars ([0, 0, 0] ++ [0])),
            okOutcome (String.mk (digitChars ([0, 0, 0] ++ [0]))))]
    ∧ (([0, 0, 0] ++ [0]).foldl (Dialer.add_digit flipperHandler okOutcome) Dialer.init).digit_queue = []
    ∧ (([0, 0, 0] ++ [0]).foldl (Dialer.add_digit flipperHandler okOutcome) Dialer.init).timer = none
    ∧ (([0, 0, 0] ++ [0]).foldl (Dialer.add_digit flipperHandler okOutcome) Dialer.init).liveCount = 0 :=
  C4_immediate_special_key flipperHandler okOutcome [0, 0, 0] 0
    (by decide) (by decide) (by decide)
